import Mathlib

/-!
Verification of the invocation dispatcher and presentation state machine of
`src/components/altair/Altair.tsx` (live-api-web-console).

The component keeps two pieces of React state:
  * `jsonString` — the chart text (a JS string, initially `""`; it can become
    `undefined` when a chart call's `args` lacks the `json_graph` key, since
    the code reads `(chartFc.args as any).json_graph` without validation);
  * `roomResult` — the room-inspection record (`null` initially; set to the
    raw `args` object of an `inspect_room` call).

The `onToolCall` handler: returns immediately when `toolCall.functionCalls`
is absent; otherwise runs the chart branch (first item named `render_altair`:
set `jsonString` to its `json_graph` argument, clear `roomResult`), then the
room branch (first item named `inspect_room`: store its `args` as
`roomResult`, set `jsonString` to `""`), and finally — when the batch is
non-empty — schedules, after a 200 ms delay, one batched reply echoing each
item's `id` and `name` with payload `{output: {success: true}}`.

A separate `useEffect` with dependency `[roomResult]` calls
`onRoomInspectionChange?.(!!roomResult)`.  It fires on mount, and after a
batch exactly when the `roomResult` dependency changed in React's
`Object.is` sense: the room branch always stores a fresh object (so the
dependency always changes when it runs), and the chart branch stores `null`
(which changes the dependency exactly when the previous value was non-null).
-/

/-- A JavaScript value as it flows through the dispatcher's argument
mappings and state fields: `undefined`, `null`, booleans, numbers and
strings.  Property access on a missing key yields `undef`. -/
inductive JSVal where
  | undef : JSVal
  | null : JSVal
  | bool : Bool → JSVal
  | num : Int → JSVal
  | str : String → JSVal
  deriving DecidableEq, Repr

/-- JavaScript truthiness, as used by `jsonString && …` and
`if (toolCall.functionCalls.length)`. -/
def JSVal.truthy : JSVal → Bool
  | .undef => false
  | .null => false
  | .bool b => b
  | .num n => n != 0
  | .str s => s != ""

/-- An argument mapping: a JS object, modelled as an association list from
property name to value. -/
abbrev ArgObject := List (String × JSVal)

/-- JS property access `obj.key`: the value stored under `key`, or
`undefined` when the key is absent. -/
def getProp (args : ArgObject) (key : String) : JSVal :=
  match args.find? (fun p => p.1 == key) with
  | some p => p.2
  | none => JSVal.undef

/-- Parameter schema entry of a capability declaration
(`{type, description}`). -/
structure ParamSchema where
  type : String
  description : String
  deriving DecidableEq, Repr

/-- A capability (function) declaration: name, description and typed
parameter schema with required-parameter list, as registered with the agent
session. -/
structure FunctionDeclaration where
  name : String
  description : String
  properties : List (String × ParamSchema)
  required : List String
  deriving DecidableEq, Repr

/-- The `chartDeclaration` constant from the source: the `render_altair`
capability with one required string parameter `json_graph`. -/
def chartDeclaration : FunctionDeclaration :=
  { name := "render_altair"
    description := "Displays an altair graph in json format."
    properties :=
      [("json_graph",
        { type := "STRING"
          description :=
            "JSON STRING representation of the graph to render. Must be a string, not a json object" })]
    required := ["json_graph"] }

/-- The `roomInspectionDeclaration` constant from the source: the
`inspect_room` capability with required parameters `assessment` (string)
and `score` (number). -/
def roomInspectionDeclaration : FunctionDeclaration :=
  { name := "inspect_room"
    description := "Analyzes video feed to assess room cleanliness and tidiness."
    properties :=
      [("assessment",
        { type := "STRING", description := "Detailed assessment of room condition" }),
       ("score",
        { type := "NUMBER", description := "Cleanliness score from 1-10" })]
    required := ["assessment", "score"] }

/-- One invocation item of a batch: an identifier, a capability name and an
argument mapping. -/
structure FunctionCall where
  id : String
  name : String
  args : ArgObject
  deriving DecidableEq, Repr

/-- An incoming invocation notification.  `functionCalls` is optional:
the source checks `if (!toolCall.functionCalls) return;`. -/
structure LiveServerToolCall where
  functionCalls : Option (List FunctionCall)
  deriving DecidableEq, Repr

/-- The component's presentation state: the chart text held in the
`jsonString` React state, and the inspection record held in the
`roomResult` React state (`none` = JS `null`; `some args` = the stored
`args` object of the inspection call). -/
structure AltairState where
  jsonString : JSVal
  roomResult : Option ArgObject
  deriving DecidableEq, Repr

/-- Initial state: `useState<string>("")` and `useState<…|null>(null)`. -/
def initialState : AltairState := { jsonString := JSVal.str "", roomResult := none }

/-- The innermost acknowledgment payload `{ success: true }`. -/
structure ToolOutput where
  success : Bool
  deriving DecidableEq, Repr

/-- The acknowledgment payload `{ output: { success: true } }`. -/
structure ResponsePayload where
  output : ToolOutput
  deriving DecidableEq, Repr

/-- One acknowledgment item: `{response: {output: {success: true}}, id, name}`. -/
structure FunctionResponse where
  id : String
  name : String
  response : ResponsePayload
  deriving DecidableEq, Repr

/-- The acknowledgment built for one invocation item: echoes `id` and
`name` with the fixed payload `{output: {success: true}}`. -/
def mkFunctionResponse (fc : FunctionCall) : FunctionResponse :=
  { id := fc.id, name := fc.name, response := { output := { success := true } } }

/-- The deferred `sendToolResponse` call: the `setTimeout` delay in
milliseconds and the batched `functionResponses` list. -/
structure ScheduledSend where
  delayMs : Nat
  functionResponses : List FunctionResponse
  deriving DecidableEq, Repr

/-- The chart branch of `onToolCall`: find the first item named
`render_altair`; if found, set `jsonString` to its `json_graph` argument
(whatever JS value that access yields) and clear `roomResult`. -/
def chartStep (fcs : List FunctionCall) (s : AltairState) : AltairState :=
  match fcs.find? (fun fc => fc.name == chartDeclaration.name) with
  | some chartFc =>
      { jsonString := getProp chartFc.args "json_graph", roomResult := none }
  | none => s

/-- The room-inspection branch of `onToolCall`: find the first item named
`inspect_room`; if found, store its `args` as the inspection record and set
`jsonString` to `""`. -/
def roomStep (fcs : List FunctionCall) (s : AltairState) : AltairState :=
  match fcs.find? (fun fc => fc.name == roomInspectionDeclaration.name) with
  | some roomFc =>
      { jsonString := JSVal.str "", roomResult := some roomFc.args }
  | none => s

/-- The acknowledgment scheduling at the end of `onToolCall`: when the
batch is non-empty (`if (toolCall.functionCalls.length)`), schedule one
batched reply after 200 ms mapping each item to its acknowledgment;
otherwise schedule nothing. -/
def scheduleAcks (fcs : List FunctionCall) : Option ScheduledSend :=
  if fcs.length != 0 then
    some { delayMs := 200, functionResponses := fcs.map mkFunctionResponse }
  else none

/-- The `onToolCall` handler: return unchanged with no reply when
`functionCalls` is absent; otherwise run the chart branch, then the room
branch, and schedule the acknowledgments. -/
def onToolCall (s : AltairState) (toolCall : LiveServerToolCall) :
    AltairState × Option ScheduledSend :=
  match toolCall.functionCalls with
  | none => (s, none)
  | some fcs => (roomStep fcs (chartStep fcs s), scheduleAcks fcs)

/-- The state after dispatching one invocation notification. -/
def dispatchState (s : AltairState) (tc : LiveServerToolCall) : AltairState :=
  (onToolCall s tc).1

/-- The state after dispatching a sequence of invocation notifications. -/
def runBatches (s : AltairState) (tcs : List LiveServerToolCall) : AltairState :=
  tcs.foldl dispatchState s

/-- Chart-active: the chart text is truthy (non-empty string), which is the
condition `jsonString && …` under which the chart surface renders. -/
def chartActive (s : AltairState) : Bool := s.jsonString.truthy

/-- Inspection-active: an inspection record is present (`!!roomResult`). -/
def inspActive (s : AltairState) : Bool := s.roomResult.isSome

/-- Whether the `useEffect` with dependency `[roomResult]` re-fires after a
batch: the `roomResult` dependency changed (in `Object.is` terms).  The
room branch always stores a freshly received object, so it always changes
the dependency; the chart branch stores `null`, which changes the
dependency exactly when an inspection record was present before. -/
def effectFires (s : AltairState) (tc : LiveServerToolCall) : Bool :=
  match tc.functionCalls with
  | none => false
  | some fcs =>
      (fcs.find? (fun fc => fc.name == roomInspectionDeclaration.name)).isSome ||
        ((fcs.find? (fun fc => fc.name == chartDeclaration.name)).isSome &&
          s.roomResult.isSome)

/-- The inspection-presence callback invocations caused by one batch: when
the effect re-fires, it reports `!!roomResult` of the new state. -/
def stepEvents (s : AltairState) (tc : LiveServerToolCall) : List Bool :=
  if effectFires s tc then [inspActive (dispatchState s tc)] else []

/-- The callback invocations over a sequence of batches. -/
def batchEvents (s : AltairState) : List LiveServerToolCall → List Bool
  | [] => []
  | tc :: rest => stepEvents s tc ++ batchEvents (dispatchState s tc) rest

/-- The full callback trace from mount: the effect fires once on mount
reporting the initial presence (`false`), then once per dependency
change. -/
def mountTrace (tcs : List LiveServerToolCall) : List Bool :=
  inspActive initialState :: batchEvents initialState tcs

/-- A sample chart invocation item with a well-formed chart argument. -/
def chartCallEx : FunctionCall :=
  { id := "1", name := "render_altair", args := [("json_graph", JSVal.str "GRAPH")] }

/-- A sample inspection invocation item. -/
def roomCallEx : FunctionCall :=
  { id := "2", name := "inspect_room",
    args := [("assessment", JSVal.str "Tidy"), ("score", JSVal.num 8)] }

/-- A sample item with an unrecognized capability name. -/
def unknownCallEx : FunctionCall :=
  { id := "4", name := "unknown_tool", args := [] }

/-- A sample chart invocation item whose argument mapping lacks the
`json_graph` key. -/
def chartCallNoArg : FunctionCall :=
  { id := "5", name := "render_altair", args := [] }

/-- A sample state in the Inspection variant. -/
def inspStateEx : AltairState :=
  { jsonString := JSVal.str "", roomResult := some roomCallEx.args }

/-- A batch is dispatched to nothing when `functionCalls` is absent. -/
theorem dispatchState_absent (s : AltairState) (tc : LiveServerToolCall)
    (h : tc.functionCalls = none) : dispatchState s tc = s := by
  simp [dispatchState, onToolCall, h]

/-- Dispatch on a present batch is the room branch after the chart branch. -/
theorem dispatchState_some (s : AltairState) (fcs : List FunctionCall) :
    dispatchState s { functionCalls := some fcs } = roomStep fcs (chartStep fcs s) := rfl

/-- If a list filters down to a single element under a predicate, that
element is also the first one found by the predicate. -/
theorem find?_of_filter_singleton {α : Type} {p : α → Bool} :
    ∀ {l : List α} {a : α}, l.filter p = [a] → l.find? p = some a := by
  intro l a h
  induction l with
  | nil => simp at h
  | cons x xs ih =>
    rw [List.filter_cons] at h
    by_cases hx : p x
    · simp only [hx, if_true, List.cons.injEq] at h
      rw [List.find?_cons_of_pos _ hx, h.1]
    · simp only [hx, if_false, Bool.false_eq_true] at h
      rw [List.find?_cons_of_neg _ hx]
      exact ih h

/-- One dispatch step preserves mutual exclusion of the chart-active and
inspection-active conditions. -/
theorem dispatch_mutex (s : AltairState) (tc : LiveServerToolCall)
    (h : (chartActive s && inspActive s) = false) :
    (chartActive (dispatchState s tc) && inspActive (dispatchState s tc)) = false := by
  cases htc : tc.functionCalls with
  | none => rw [dispatchState_absent s tc htc]; exact h
  | some fcs =>
    have hd : dispatchState s tc = roomStep fcs (chartStep fcs s) := by
      simp [dispatchState, onToolCall, htc]
    rw [hd]
    unfold roomStep chartStep
    cases hr : fcs.find? (fun fc => fc.name == roomInspectionDeclaration.name) with
    | some roomFc => simp [chartActive, inspActive, JSVal.truthy]
    | none =>
      cases hc : fcs.find? (fun fc => fc.name == chartDeclaration.name) with
      | some chartFc => simp [chartActive, inspActive]
      | none => exact h

/-- C1: in every state reachable from the initial state (empty chart text,
no inspection record) by any sequence of invocation batches, the
presentation state is never simultaneously Chart-active (truthy chart
text) and Inspection-active (inspection record present). -/
theorem c1_mutual_exclusion (tcs : List LiveServerToolCall) :
    (chartActive (runBatches initialState tcs) &&
      inspActive (runBatches initialState tcs)) = false := by
  suffices h : ∀ s, (chartActive s && inspActive s) = false →
      (chartActive (runBatches s tcs) && inspActive (runBatches s tcs)) = false from
    h initialState (by decide)
  induction tcs with
  | nil => intro s hs; exact hs
  | cons tc rest ih =>
    intro s hs
    simp only [runBatches, List.foldl_cons] at *
    exact ih (dispatchState s tc) (dispatch_mutex s tc hs)

/-- C9: when the incoming notification carries no batch at all (its
`functionCalls` field is absent), the dispatcher returns immediately: the
state is unchanged and no acknowledgment is scheduled. -/
theorem c9_no_batch_noop (s : AltairState) :
    onToolCall s { functionCalls := none } = (s, none) := rfl

/-- C4: a non-empty batch of size N schedules exactly one batched reply
after the fixed 200 ms delay, with one acknowledgment per item in the
original order, each echoing the item's id and name with the fixed payload
output-success-true; an empty batch schedules nothing. -/
theorem c4_acknowledgments (s : AltairState) (fcs : List FunctionCall)
    (h : fcs ≠ []) :
    (onToolCall s { functionCalls := some fcs }).2 =
      some { delayMs := 200, functionResponses := fcs.map mkFunctionResponse } ∧
    (fcs.map mkFunctionResponse).length = fcs.length ∧
    (onToolCall s { functionCalls := some ([] : List FunctionCall) }).2 = none := by
  refine ⟨?_, by simp, rfl⟩
  simp [onToolCall, scheduleAcks, h]

/-- Witness for C4 at a concrete two-item batch. -/
theorem c4_acknowledgments_witness :
    ([chartCallEx, unknownCallEx] ≠ ([] : List FunctionCall)) ∧
    ((onToolCall initialState { functionCalls := some [chartCallEx, unknownCallEx] }).2 =
      some { delayMs := 200,
             functionResponses := [chartCallEx, unknownCallEx].map mkFunctionResponse } ∧
    ([chartCallEx, unknownCallEx].map mkFunctionResponse).length =
      [chartCallEx, unknownCallEx].length ∧
    (onToolCall initialState { functionCalls := some ([] : List FunctionCall) }).2 = none) :=
  ⟨by decide, c4_acknowledgments initialState [chartCallEx, unknownCallEx] (by decide)⟩

/-- Counterexample to C2 as stated: a batch containing exactly one
chart-capability item (with a well-formed `json_graph` string) and also an
inspection-capability item does not end in the Chart state — the inspection
branch runs second and clears the chart text. -/
theorem c2_counterexample :
    (List.filter (fun f => f.name == chartDeclaration.name)
        [chartCallEx, roomCallEx] = [chartCallEx]) ∧
    getProp chartCallEx.args "json_graph" = JSVal.str "GRAPH" ∧
    dispatchState initialState { functionCalls := some [chartCallEx, roomCallEx] } =
      { jsonString := JSVal.str "", roomResult := some roomCallEx.args } ∧
    dispatchState initialState { functionCalls := some [chartCallEx, roomCallEx] } ≠
      { jsonString := JSVal.str "GRAPH", roomResult := none } := by decide

/-- C2 (amended): for every batch that contains a chart-capability item and
no inspection-capability item, dispatching from any prior state yields
Chart(json_graph text of the first chart item in batch order) with any
prior Inspection state cleared. -/
theorem c2_chart_dispatch (s : AltairState) (fcs : List FunctionCall)
    (fc : FunctionCall) (g : String)
    (hfind : fcs.find? (fun f => f.name == chartDeclaration.name) = some fc)
    (hroom : fcs.find? (fun f => f.name == roomInspectionDeclaration.name) = none)
    (harg : getProp fc.args "json_graph" = JSVal.str g) :
    dispatchState s { functionCalls := some fcs } =
      { jsonString := JSVal.str g, roomResult := none } := by
  rw [dispatchState_some]
  unfold roomStep chartStep
  simp [hfind, hroom, harg]

/-- Witness for the amended C2: one chart item among unrecognized items,
dispatched from an Inspection state. -/
theorem c2_chart_dispatch_witness :
    ([unknownCallEx, chartCallEx].find? (fun f => f.name == chartDeclaration.name) =
      some chartCallEx) ∧
    ([unknownCallEx, chartCallEx].find?
      (fun f => f.name == roomInspectionDeclaration.name) = none) ∧
    getProp chartCallEx.args "json_graph" = JSVal.str "GRAPH" ∧
    dispatchState inspStateEx { functionCalls := some [unknownCallEx, chartCallEx] } =
      { jsonString := JSVal.str "GRAPH", roomResult := none } :=
  ⟨by decide, by decide, by decide,
    c2_chart_dispatch inspStateEx [unknownCallEx, chartCallEx] chartCallEx "GRAPH"
      (by decide) (by decide) (by decide)⟩

/-- C3: for every batch containing exactly one inspection-capability item
(with `assessment` and `score` arguments), dispatching from any prior state
yields Inspection(that item's argument record) with the chart text cleared
to the empty string. -/
theorem c3_inspection_dispatch (s : AltairState) (fcs : List FunctionCall)
    (fc : FunctionCall) (a n : JSVal)
    (hone : fcs.filter (fun f => f.name == roomInspectionDeclaration.name) = [fc])
    (ha : getProp fc.args "assessment" = a)
    (hn : getProp fc.args "score" = n) :
    dispatchState s { functionCalls := some fcs } =
      { jsonString := JSVal.str "", roomResult := some fc.args } := by
  have hfind := find?_of_filter_singleton hone
  rw [dispatchState_some]
  unfold roomStep chartStep
  cases hc : fcs.find? (fun f => f.name == chartDeclaration.name) <;> simp [hfind]

/-- Witness for C3: one inspection item after a chart item, dispatched from
the initial state. -/
theorem c3_inspection_dispatch_witness :
    ([chartCallEx, roomCallEx].filter
      (fun f => f.name == roomInspectionDeclaration.name) = [roomCallEx]) ∧
    getProp roomCallEx.args "assessment" = JSVal.str "Tidy" ∧
    getProp roomCallEx.args "score" = JSVal.num 8 ∧
    dispatchState initialState { functionCalls := some [chartCallEx, roomCallEx] } =
      { jsonString := JSVal.str "", roomResult := some roomCallEx.args } :=
  ⟨by decide, by decide, by decide,
    c3_inspection_dispatch initialState [chartCallEx, roomCallEx] roomCallEx
      (JSVal.str "Tidy") (JSVal.num 8) (by decide) (by decide) (by decide)⟩

/-- C5: for every batch containing both a chart-capability item and an
inspection-capability item, the net state after dispatch is the Inspection
variant for the first inspection item, with the chart text cleared: the
inspection branch executes after the chart branch. -/
theorem c5_inspection_wins (s : AltairState) (fcs : List FunctionCall)
    (cfc rfc : FunctionCall)
    (hchart : cfc ∈ fcs ∧ cfc.name = chartDeclaration.name)
    (hroom : fcs.find? (fun f => f.name == roomInspectionDeclaration.name) = some rfc) :
    dispatchState s { functionCalls := some fcs } =
      { jsonString := JSVal.str "", roomResult := some rfc.args } := by
  rw [dispatchState_some]
  unfold roomStep chartStep
  cases hc : fcs.find? (fun f => f.name == chartDeclaration.name) <;> simp [hroom]

/-- Witness for C5 at the concrete two-item batch. -/
theorem c5_inspection_wins_witness :
    (chartCallEx ∈ [chartCallEx, roomCallEx] ∧
      chartCallEx.name = chartDeclaration.name) ∧
    ([chartCallEx, roomCallEx].find?
      (fun f => f.name == roomInspectionDeclaration.name) = some roomCallEx) ∧
    dispatchState initialState { functionCalls := some [chartCallEx, roomCallEx] } =
      { jsonString := JSVal.str "", roomResult := some roomCallEx.args } :=
  ⟨⟨by decide, by decide⟩, by decide,
    c5_inspection_wins initialState [chartCallEx, roomCallEx] chartCallEx roomCallEx
      ⟨by decide, by decide⟩ (by decide)⟩

/-- C6: for every batch that is empty or whose items all carry names other
than `render_altair` and `inspect_room`, the presentation state after
dispatch equals the state before dispatch (unrecognized names are silently
ignored), while an acknowledgment is still scheduled for each item of a
non-empty batch and none for an empty one. -/
theorem c6_unrecognized_frame (s : AltairState) (fcs : List FunctionCall)
    (h : ∀ f ∈ fcs, f.name ≠ chartDeclaration.name ∧
      f.name ≠ roomInspectionDeclaration.name) :
    dispatchState s { functionCalls := some fcs } = s ∧
    (fcs ≠ [] → (onToolCall s { functionCalls := some fcs }).2 =
      some { delayMs := 200, functionResponses := fcs.map mkFunctionResponse }) ∧
    (onToolCall s { functionCalls := some ([] : List FunctionCall) }).2 = none := by
  have hc : fcs.find? (fun f => f.name == chartDeclaration.name) = none := by
    rw [List.find?_eq_none]
    intro x hx
    simpa using (h x hx).1
  have hr : fcs.find? (fun f => f.name == roomInspectionDeclaration.name) = none := by
    rw [List.find?_eq_none]
    intro x hx
    simpa using (h x hx).2
  refine ⟨?_, fun hne => ?_, rfl⟩
  · rw [dispatchState_some]
    unfold roomStep chartStep
    simp [hc, hr]
  · simp [onToolCall, scheduleAcks, hne]

/-- Witness for C6: a one-item batch with an unrecognized capability name
leaves the Inspection state unchanged and still schedules one
acknowledgment. -/
theorem c6_unrecognized_frame_witness :
    (∀ f ∈ [unknownCallEx], f.name ≠ chartDeclaration.name ∧
      f.name ≠ roomInspectionDeclaration.name) ∧
    (dispatchState inspStateEx { functionCalls := some [unknownCallEx] } = inspStateEx ∧
    ([unknownCallEx] ≠ ([] : List FunctionCall) →
      (onToolCall inspStateEx { functionCalls := some [unknownCallEx] }).2 =
        some { delayMs := 200,
               functionResponses := [unknownCallEx].map mkFunctionResponse }) ∧
    (onToolCall inspStateEx { functionCalls := some ([] : List FunctionCall) }).2 = none) :=
  ⟨by decide, c6_unrecognized_frame inspStateEx [unknownCallEx] (by decide)⟩

/-- C8: dispatching a chart-capability batch twice in succession from any
starting state yields the same final presentation state as dispatching it
once. -/
theorem c8_chart_idempotent (s : AltairState) (tc : LiveServerToolCall)
    (fcs : List FunctionCall) (cfc : FunctionCall)
    (htc : tc.functionCalls = some fcs)
    (hchart : fcs.find? (fun f => f.name == chartDeclaration.name) = some cfc) :
    dispatchState (dispatchState s tc) tc = dispatchState s tc := by
  simp only [dispatchState, onToolCall, htc]
  unfold roomStep chartStep
  cases hr : fcs.find? (fun f => f.name == roomInspectionDeclaration.name) <;>
    simp [hchart]

/-- Witness for C8 at a concrete one-item chart batch from the Inspection
state. -/
theorem c8_chart_idempotent_witness :
    (LiveServerToolCall.mk (some [chartCallEx])).functionCalls = some [chartCallEx] ∧
    ([chartCallEx].find? (fun f => f.name == chartDeclaration.name) = some chartCallEx) ∧
    dispatchState
        (dispatchState inspStateEx { functionCalls := some [chartCallEx] })
        { functionCalls := some [chartCallEx] } =
      dispatchState inspStateEx { functionCalls := some [chartCallEx] } :=
  ⟨rfl, by decide,
    c8_chart_idempotent inspStateEx { functionCalls := some [chartCallEx] }
      [chartCallEx] chartCallEx rfl (by decide)⟩

/-- C10: the dispatcher performs no argument validation.  First part: when
the first chart-capability item's argument mapping lacks the `json_graph`
key, the chart branch still executes, clearing the Inspection state and
setting the chart text to the missing (undefined) value.  Second part: the
first inspection-capability item's argument mapping is stored as-is,
whatever it contains. -/
theorem c10_no_validation (s : AltairState) (fcs : List FunctionCall) :
    (∀ cfc, fcs.find? (fun f => f.name == chartDeclaration.name) = some cfc →
      cfc.args.find? (fun p => p.1 == "json_graph") = none →
      chartStep fcs s = { jsonString := JSVal.undef, roomResult := none }) ∧
    (∀ rfc, fcs.find? (fun f => f.name == roomInspectionDeclaration.name) = some rfc →
      (dispatchState s { functionCalls := some fcs }).roomResult = some rfc.args) := by
  constructor
  · intro cfc hc harg
    unfold chartStep
    simp [hc, getProp, harg]
  · intro rfc hr
    rw [dispatchState_some]
    unfold roomStep
    simp [hr]

/-- Witness for C10: a chart item with no arguments at all, and an
inspection item stored verbatim. -/
theorem c10_no_validation_witness :
    chartStep [chartCallNoArg] inspStateEx =
      { jsonString := JSVal.undef, roomResult := none } ∧
    (dispatchState initialState { functionCalls := some [roomCallEx] }).roomResult =
      some roomCallEx.args :=
  ⟨(c10_no_validation inspStateEx [chartCallNoArg]).1 chartCallNoArg
      (by decide) (by decide),
    (c10_no_validation initialState [roomCallEx]).2 roomCallEx (by decide)⟩

/-- C7: the inspection-presence callback fires with `true` on every
transition into the Inspection variant and with `false` on every transition
out of it; the trace from mount starts with the initial `false`
notification; and a chart batch dispatched while no inspection record is
present (a Chart-to-Chart update) fires no notification. -/
theorem c7_inspection_callback (s : AltairState) (tc : LiveServerToolCall) :
    (inspActive s = false → inspActive (dispatchState s tc) = true →
      stepEvents s tc = [true]) ∧
    (inspActive s = true → inspActive (dispatchState s tc) = false →
      stepEvents s tc = [false]) ∧
    (∀ tcs, mountTrace tcs = false :: batchEvents initialState tcs) ∧
    (∀ fcs cfc, s.roomResult = none →
      tc.functionCalls = some fcs →
      fcs.find? (fun f => f.name == chartDeclaration.name) = some cfc →
      fcs.find? (fun f => f.name == roomInspectionDeclaration.name) = none →
      stepEvents s tc = []) := by
  refine ⟨?_, ?_, fun tcs => rfl, ?_⟩
  · intro h1 h2
    cases htc : tc.functionCalls with
    | none =>
      rw [dispatchState_absent s tc htc, h1] at h2
      exact absurd h2 (by decide)
    | some fcs =>
      cases hr : fcs.find? (fun f => f.name == roomInspectionDeclaration.name) with
      | some rfc =>
        have hd : dispatchState s tc =
            { jsonString := JSVal.str "", roomResult := some rfc.args } := by
          simp only [dispatchState, onToolCall, htc]
          unfold roomStep
          simp [hr]
        simp [stepEvents, effectFires, htc, hr, hd, inspActive]
      | none =>
        cases hc : fcs.find? (fun f => f.name == chartDeclaration.name) with
        | some cfc =>
          have hd : dispatchState s tc =
              { jsonString := getProp cfc.args "json_graph", roomResult := none } := by
            simp only [dispatchState, onToolCall, htc]
            unfold roomStep chartStep
            simp [hr, hc]
          rw [hd] at h2
          simp [inspActive] at h2
        | none =>
          have hd : dispatchState s tc = s := by
            simp only [dispatchState, onToolCall, htc]
            unfold roomStep chartStep
            simp [hr, hc]
          rw [hd, h1] at h2
          exact absurd h2 (by decide)
  · intro h1 h2
    cases htc : tc.functionCalls with
    | none =>
      rw [dispatchState_absent s tc htc, h1] at h2
      exact absurd h2 (by decide)
    | some fcs =>
      cases hr : fcs.find? (fun f => f.name == roomInspectionDeclaration.name) with
      | some rfc =>
        have hd : dispatchState s tc =
            { jsonString := JSVal.str "", roomResult := some rfc.args } := by
          simp only [dispatchState, onToolCall, htc]
          unfold roomStep
          simp [hr]
        rw [hd] at h2
        simp [inspActive] at h2
      | none =>
        cases hc : fcs.find? (fun f => f.name == chartDeclaration.name) with
        | some cfc =>
          have hd : dispatchState s tc =
              { jsonString := getProp cfc.args "json_graph", roomResult := none } := by
            simp only [dispatchState, onToolCall, htc]
            unfold roomStep chartStep
            simp [hr, hc]
          simp only [inspActive] at h1
          simp [stepEvents, effectFires, htc, hr, hc, hd, inspActive, h1]
        | none =>
          have hd : dispatchState s tc = s := by
            simp only [dispatchState, onToolCall, htc]
            unfold roomStep chartStep
            simp [hr, hc]
          rw [hd, h1] at h2
          exact absurd h2 (by decide)
  · intro fcs cfc h0 htc hc hr
    simp [stepEvents, effectFires, htc, hc, hr, h0]

/-- Witness for C7: a transition into Inspection fires `true`, a chart
batch from the Inspection state fires `false`, the mount trace starts with
`false`, and a chart batch from the initial state fires nothing. -/
theorem c7_inspection_callback_witness :
    stepEvents initialState { functionCalls := some [roomCallEx] } = [true] ∧
    stepEvents inspStateEx { functionCalls := some [chartCallEx] } = [false] ∧
    mountTrace [] = false :: batchEvents initialState [] ∧
    stepEvents initialState { functionCalls := some [chartCallEx] } = [] :=
  ⟨(c7_inspection_callback initialState { functionCalls := some [roomCallEx] }).1
      (by decide) (by decide),
    (c7_inspection_callback inspStateEx { functionCalls := some [chartCallEx] }).2.1
      (by decide) (by decide),
    (c7_inspection_callback initialState
      { functionCalls := some [roomCallEx] }).2.2.1 [],
    (c7_inspection_callback initialState { functionCalls := some [chartCallEx] }).2.2.2
      [chartCallEx] chartCallEx (by decide) rfl (by decide) (by decide)⟩
